import Mathlib

/-!
Shallow embedding of dotweb's `server.go` request pipeline.

The Go code is modelled as a pure interpreter that, given an environment
describing the server configuration and the behaviour of the external
collaborators (gzip writer construction, session manager, hijack attempt,
registered modules, the user handler), produces the ordered list of
observable events the request performs, together with the panic value, if
any, that escapes `wrapRouterHandle` itself (Go's `defer`/`recover` is made
explicit: the deferred finalizer of lines 242-279 only guards code executed
after the `defer` statement runs).
-/

namespace DotWeb

/-- Observable events of the request pipeline, in program order. -/
inductive Ev where
  | getResponse : Ev
  | getContext : Ev
  | gzipHeaderSet : Ev
  | addRequestCount : Nat → Ev
  | setCookie : String → String → String → Ev
  | writeHeader : Nat → Ev
  | setContentType : String → Ev
  | writeString : String → Ev
  | beginHook : Nat → Ev
  | handlerRun : Ev
  | endHook : Nat → Ev
  | exceptionHandlerRun : String → Ev
  | errorLog : Ev
  | debugLog : Ev
  | addErrorCount : Nat → Ev
  | gzipClose : Ev
  | putResponse : Ev
  | putContext : Ev
  | serverHeaderSet : Ev
  | offlineServe : Ev
  | routerServe : Ev
  | defaultMuxServe : Ev
  deriving DecidableEq, Repr

/-- The per-request `HttpContext` state the claims depend on:
the `End` flag checked at `server.go:290` and the `SessionID` field. -/
structure Ctx where
  isEnd : Bool
  sessionID : String
  deriving DecidableEq, Repr

/-- A hook (`OnBeginRequest`/`OnEndRequest`) or handler body: it transforms
the context and optionally panics with a value (modelled as a `String`). -/
def Hook : Type := Ctx → Ctx × Option String

/-- `HttpModule` from `server.go:30-35`: optional begin and end hooks. -/
structure HttpModule where
  onBeginRequest : Option Hook
  onEndRequest : Option Hook

/-- `HttpHandle` from `server.go:61`. -/
def HttpHandle : Type := Ctx → Ctx × Option String

/-- Server-side environment for one request: configuration flags plus the
results returned by external collaborators (`gzip.NewWriterLevel` error,
session manager answers, exception-handler registration, module list). -/
structure ServerEnv where
  enabledGzip : Bool
  gzipNewWriterErr : Option String
  enabledSession : Bool
  clientSessionErr : Bool
  clientSessionID : String
  newSessionID : String
  cookieName : String
  exceptionHandlerRegistered : Bool
  modules : List HttpModule

/-- Request-side environment: the result of `httpCtx.Hijack()`
(`some msg` models a hijack failure with error text `msg`). -/
structure ReqEnv where
  hijackErr : Option String

/-- Result of running the wrapped handler: the event trace and the panic
value (if any) escaping `wrapRouterHandle` to its caller. -/
structure RunResult where
  events : List Ev
  escaped : Option String
  deriving Repr

/-- `CharsetUTF8`, the value set as content type at `server.go:235`. -/
def charsetUTF8 : String := "charset=utf-8"

/-- Upper-case hex digit, as used by Go's `url.QueryEscape`. -/
def hexDigitUpper (n : Nat) : Char :=
  if n < 10 then Char.ofNat (48 + n) else Char.ofNat (55 + n)

/-- Go `url.QueryEscape` on one (ASCII) character: alphanumerics and
`-`, `_`, `.`, `~` are kept, space becomes `+`, the rest become `%XX`. -/
def queryEscapeChar (c : Char) : List Char :=
  if ('A' ≤ c ∧ c ≤ 'Z') ∨ ('a' ≤ c ∧ c ≤ 'z') ∨ ('0' ≤ c ∧ c ≤ '9')
      ∨ c = '-' ∨ c = '_' ∨ c = '.' ∨ c = '~' then
    [c]
  else if c = ' ' then
    ['+']
  else
    ['%', hexDigitUpper (c.toNat / 16 % 16), hexDigitUpper (c.toNat % 16)]

/-- Go `url.QueryEscape` (restricted to ASCII input), used at `server.go:221`. -/
def queryEscape (s : String) : String :=
  String.mk ((s.data.map queryEscapeChar).flatten)

/-- The fresh context produced by `httpCtx.Reset` at `server.go:195`. -/
def initCtx : Ctx := { isEnd := false, sessionID := "" }

/-- The session step of `wrapRouterHandle`, `server.go:213-227`: if sessions
are enabled, a resolvable non-empty client session id is attached to the
context; otherwise a new id is minted and exactly one cookie is set with the
configured cookie name, the query-escaped id, and path `/`. -/
def sessionStep (sv : ServerEnv) (c : Ctx) : Ctx × List Ev :=
  if sv.enabledSession = true then
    if sv.clientSessionErr = false ∧ sv.clientSessionID ≠ "" then
      ({ c with sessionID := sv.clientSessionID }, [])
    else
      ({ c with sessionID := sv.newSessionID },
        [Ev.setCookie sv.cookieName (queryEscape sv.newSessionID) "/"])
  else
    (c, [])

/-- Run the selected hook of each module in order (`server.go:282-286` and
`295-299`): a `nil` hook is skipped; a panicking hook stops the loop and
reports the panic value. `tag` records which hook index was invoked. -/
def runHooks (sel : HttpModule → Option Hook) (tag : Nat → Ev) :
    List (Nat × HttpModule) → Ctx → Ctx × List Ev × Option String
  | [], c => (c, [], none)
  | (i, m) :: rest, c =>
    match sel m with
    | none => runHooks sel tag rest c
    | some hk =>
      match hk c with
      | (c1, some v) => (c1, [tag i], some v)
      | (c1, none) =>
        match runHooks sel tag rest c1 with
        | (c2, evs, pv) => (c2, tag i :: evs, pv)

/-- The user-handler step, `server.go:290-292`: the handler is invoked only
when the context has not been ended. -/
def handlerStage (handle : HttpHandle) (c : Ctx) : Ctx × List Ev × Option String :=
  if c.isEnd = false then
    match handle c with
    | (c1, pv) => (c1, [Ev.handlerRun], pv)
  else
    (c, [], none)

/-- The code guarded by the deferred finalizer, `server.go:281-300`:
begin hooks, then (unless ended) the handler, then end hooks. A panic at any
stage aborts the remaining stages and is reported as the third component. -/
def runBody (sv : ServerEnv) (handle : HttpHandle) (c : Ctx) :
    Ctx × List Ev × Option String :=
  match runHooks (fun m => m.onBeginRequest) Ev.beginHook sv.modules.enum c with
  | (c1, eb, some v) => (c1, eb, some v)
  | (c1, eb, none) =>
    match handlerStage handle c1 with
    | (c2, em, some v) => (c2, eb ++ em, some v)
    | (c2, em, none) =>
      match runHooks (fun m => m.onEndRequest) Ev.endHook sv.modules.enum c2 with
      | (c3, ee, pe) => (c3, eb ++ em ++ ee, pe)

/-- The deferred finalizer of `server.go:242-279`: on a recovered panic it
runs the exception handler (if registered), emits one error-level log and
bumps the error counter by 1; then in every case it emits the debug access
log, closes the gzip writer when gzip is enabled, and returns the response
and the context to their pools. -/
def finalizer (sv : ServerEnv) (p : Option String) : List Ev :=
  (match p with
   | some v =>
     (if sv.exceptionHandlerRegistered = true then [Ev.exceptionHandlerRun v] else [])
       ++ [Ev.errorLog, Ev.addErrorCount 1]
   | none => [])
    ++ [Ev.debugLog]
    ++ (if sv.enabledGzip = true then [Ev.gzipClose] else [])
    ++ [Ev.putResponse, Ev.putContext]

/-- Setup events after the pool acquisitions: the gzip content-encoding
header (when gzip is enabled and construction succeeded), the
request-counter increment, and the session events (`server.go:197-227`). -/
def setupTail (sv : ServerEnv) (c : Ctx) : List Ev :=
  (if sv.enabledGzip = true then [Ev.gzipHeaderSet] else [])
    ++ [Ev.addRequestCount 1]
    ++ (sessionStep sv c).2

/-- Events of the setup phase that precedes the hijack check,
`server.go:192-227`: pool acquisitions followed by `setupTail`. -/
def setupEvents (sv : ServerEnv) (c : Ctx) : List Ev :=
  [Ev.getResponse, Ev.getContext] ++ setupTail sv c

/-- `wrapRouterHandle`, `server.go:189-302`. Note the two early exits that
happen before the `defer` of line 242 is registered: a failing
`gzip.NewWriterLevel` panics out of the whole wrapper (line 201), and a
failing hijack writes a 500 response and returns (lines 230-239); in both
cases the finalizer never runs. -/
def wrapRouterHandle (sv : ServerEnv) (handle : HttpHandle) (isHijack : Bool)
    (rq : ReqEnv) : RunResult :=
  if sv.enabledGzip = true ∧ sv.gzipNewWriterErr ≠ none then
    { events := [Ev.getResponse, Ev.getContext],
      escaped := some ("use gzip error -> " ++ sv.gzipNewWriterErr.getD "") }
  else if isHijack = true ∧ rq.hijackErr ≠ none then
    { events := setupEvents sv initCtx
        ++ [Ev.writeHeader 500, Ev.setContentType charsetUTF8,
            Ev.writeString (rq.hijackErr.getD "")],
      escaped := none }
  else
    match runBody sv handle (sessionStep sv initCtx).1 with
    | (_, be, pv) =>
      { events := setupEvents sv initCtx ++ be ++ finalizer sv pv,
        escaped := none }

/-- Go `http.Header.Get`: first value stored under the (canonical) key,
or `""` when absent. Headers are modelled as an association list whose keys
are already in canonical form. -/
def headerGet (h : List (String × String)) (k : String) : String :=
  match h.find? (fun p => p.1 == k) with
  | some p => p.2
  | none => ""

/-- `checkIsWebSocketRequest`, `server.go:416-421`: exact, case-sensitive
comparison of the `Connection` header value with `"Upgrade"`. -/
def checkIsWebSocketRequest (h : List (String × String)) : Bool :=
  headerGet h "Connection" == "Upgrade"

/-- `ServeHTTP`, `server.go:88-102`, as its event trace: WebSocket-classified
requests go straight to the default mux; all other requests get the
`Server` header stamped and are then routed to the offline handler or the
router. -/
def serveHTTP (offline : Bool) (h : List (String × String)) : List Ev :=
  if checkIsWebSocketRequest h then
    [Ev.defaultMuxServe]
  else
    Ev.serverHeaderSet ::
      (if offline then [Ev.offlineServe] else [Ev.routerServe])

/-- `convert.Int642String`: decimal rendering of a 64-bit integer. -/
def int642String (i : Int) : String := toString i

/-- `convert.Int2String`: decimal rendering of an integer. -/
def int2String (i : Int) : String := toString i

/-- The fields of `*HttpContext` read by `logContext`, `server.go:364-393`. -/
structure LogCtxData where
  isWebSocket : Bool
  contentLength : Int
  responseSize : Int
  responseStatus : Int
  method : String
  proto : String
  remoteIP : String

/-- The fields of `*http.Request` read by `logRequest`, `server.go:395-413`. -/
structure LogReqData where
  contentLength : Int
  method : String
  proto : String
  remoteAddr : String

/-- `logContext`, `server.go:364-393`: the standard/WebSocket access-log
line. `none` models a `nil` context pointer. -/
def logContext (ctx : Option LogCtxData) (timetaken : Int) : String :=
  let fields :=
    match ctx with
    | some c =>
      if c.isWebSocket = false then
        (int642String c.contentLength, int642String c.responseSize,
          c.method, c.proto, int2String c.responseStatus, c.remoteIP)
      else
        (int642String c.contentLength, "0", c.method, c.proto, "0", c.remoteIP)
    | none => ("", "", "", "", "", "")
  match fields with
  | (reqbytelen, resbytelen, method, proto, status, userip) =>
    method ++ " " ++ userip ++ " " ++ proto ++ " " ++ status ++ " "
      ++ reqbytelen ++ " " ++ resbytelen ++ " " ++ int642String timetaken

/-- `logRequest`, `server.go:395-413`: the file-serving access-log line;
status is the literal `"200"` and the response byte length is empty. -/
def logRequest (req : LogReqData) (timetaken : Int) : String :=
  let reqbytelen := int642String req.contentLength
  let resbytelen := ""
  let method := req.method
  let proto := req.proto
  let status := "200"
  let userip := req.remoteAddr
  method ++ " " ++ userip ++ " " ++ proto ++ " " ++ status ++ " "
    ++ reqbytelen ++ " " ++ resbytelen ++ " " ++ int642String timetaken

/-- Number of events in a trace satisfying `p`. -/
def countEv (p : Ev → Bool) (l : List Ev) : Nat := (l.filter p).length

/-- Amount one event adds to the process-wide error counter. -/
def evErrInc : Ev → Nat
  | Ev.addErrorCount n => n
  | _ => 0

/-- Total amount added to the process-wide error counter by a trace. -/
def errorCountTotal (l : List Ev) : Nat := (l.map evErrInc).sum

def Ev.isGetResponse : Ev → Bool
  | .getResponse => true
  | _ => false

def Ev.isGetContext : Ev → Bool
  | .getContext => true
  | _ => false

def Ev.isPutResponse : Ev → Bool
  | .putResponse => true
  | _ => false

def Ev.isPutContext : Ev → Bool
  | .putContext => true
  | _ => false

def Ev.isBeginHook : Ev → Bool
  | .beginHook _ => true
  | _ => false

def Ev.isEndHook : Ev → Bool
  | .endHook _ => true
  | _ => false

def Ev.isHandlerRun : Ev → Bool
  | .handlerRun => true
  | _ => false

def Ev.isErrorLog : Ev → Bool
  | .errorLog => true
  | _ => false

def Ev.isDebugLog : Ev → Bool
  | .debugLog => true
  | _ => false

/-- Events that can occur in `setupTail`. -/
def Ev.isSetupTailEv : Ev → Bool
  | .gzipHeaderSet => true
  | .addRequestCount _ => true
  | .setCookie _ _ _ => true
  | _ => false

/-- Events that can occur in the deferred finalizer. -/
def Ev.isFinalizerEv : Ev → Bool
  | .exceptionHandlerRun _ => true
  | .errorLog => true
  | .addErrorCount _ => true
  | .debugLog => true
  | .gzipClose => true
  | .putResponse => true
  | .putContext => true
  | _ => false

/-! ### Concrete environments used to instantiate the theorems -/

/-- A handler that returns normally without touching the context. -/
def idHandle : HttpHandle := fun c => (c, none)

/-- A handler that panics with value `"boom"`. -/
def panicHandle : HttpHandle := fun c => (c, some "boom")

/-- A request whose hijack attempt (if any) succeeds. -/
def okReq : ReqEnv := { hijackErr := none }

/-- A request whose hijack attempt fails. -/
def hijackFailReq : ReqEnv := { hijackErr := some "no hijacker" }

/-- Plainest configuration: gzip off, sessions off, no modules. -/
def svPlain : ServerEnv :=
  { enabledGzip := false, gzipNewWriterErr := none,
    enabledSession := false, clientSessionErr := false, clientSessionID := "",
    newSessionID := "", cookieName := "", exceptionHandlerRegistered := false,
    modules := [] }

/-- Gzip enabled and `gzip.NewWriterLevel` failing. -/
def svGzipFail : ServerEnv :=
  { enabledGzip := true, gzipNewWriterErr := some "bad level",
    enabledSession := false, clientSessionErr := false, clientSessionID := "",
    newSessionID := "", cookieName := "", exceptionHandlerRegistered := true,
    modules := [] }

/-- Like `svPlain` but with a registered exception handler. -/
def svExc : ServerEnv :=
  { enabledGzip := false, gzipNewWriterErr := none,
    enabledSession := false, clientSessionErr := false, clientSessionID := "",
    newSessionID := "", cookieName := "", exceptionHandlerRegistered := true,
    modules := [] }

/-- Sessions enabled, no client session id presented, fresh id `"abc123"`. -/
def svSession : ServerEnv :=
  { enabledGzip := false, gzipNewWriterErr := none,
    enabledSession := true, clientSessionErr := true, clientSessionID := "",
    newSessionID := "abc123", cookieName := "dotweb_sessionId",
    exceptionHandlerRegistered := false, modules := [] }

/-- A module with only an end hook that returns normally. -/
def moduleEndOnly : HttpModule :=
  { onBeginRequest := none, onEndRequest := some (fun c => (c, none)) }

/-- Configuration with one registered end hook. -/
def svOneEnd : ServerEnv :=
  { enabledGzip := false, gzipNewWriterErr := none,
    enabledSession := false, clientSessionErr := false, clientSessionID := "",
    newSessionID := "", cookieName := "", exceptionHandlerRegistered := false,
    modules := [moduleEndOnly] }

/-- A module whose begin hook ends the context and whose end hook returns
normally. -/
def moduleEnder : HttpModule :=
  { onBeginRequest := some (fun c => ({ c with isEnd := true }, none)),
    onEndRequest := some (fun c => (c, none)) }

/-- Configuration with one module that ends the request in its begin hook. -/
def svEnder : ServerEnv :=
  { enabledGzip := false, gzipNewWriterErr := none,
    enabledSession := false, clientSessionErr := false, clientSessionID := "",
    newSessionID := "", cookieName := "", exceptionHandlerRegistered := false,
    modules := [moduleEnder] }

/-- The context after `moduleEnder`'s begin hook. -/
def ctxEnded : Ctx := { isEnd := true, sessionID := "" }

/-! ### Generic counting and filtering lemmas -/

theorem countEv_append (p : Ev → Bool) (a b : List Ev) :
    countEv p (a ++ b) = countEv p a + countEv p b := by
  simp [countEv, List.filter_append]

theorem filter_eq_nil_of_forall {p : Ev → Bool} :
    ∀ {l : List Ev}, (∀ e ∈ l, p e = false) → l.filter p = [] := by
  intro l
  induction l with
  | nil => intro _; rfl
  | cons a t ih =>
    intro h
    have ha := h a (by simp)
    have ht : ∀ e ∈ t, p e = false := fun e he => h e (by simp [he])
    rw [List.filter_cons, if_neg (by simp [ha])]
    exact ih ht

theorem countEv_eq_zero_of_forall {p : Ev → Bool} {l : List Ev}
    (h : ∀ e ∈ l, p e = false) : countEv p l = 0 := by
  simp [countEv, filter_eq_nil_of_forall h]

theorem filter_map_tag_self {p : Ev → Bool} {tag : Nat → Ev}
    (h : ∀ i, p (tag i) = true) (ix : List Nat) :
    (ix.map tag).filter p = ix.map tag := by
  induction ix with
  | nil => rfl
  | cons i t ih => simp [List.filter_cons, h i, ih]

theorem filter_map_tag_nil {p : Ev → Bool} {tag : Nat → Ev}
    (h : ∀ i, p (tag i) = false) (ix : List Nat) :
    (ix.map tag).filter p = [] := by
  induction ix with
  | nil => rfl
  | cons i t ih => simp [List.filter_cons, h i, ih]

/-! ### Structure of the traces produced by each pipeline stage -/

theorem runHooks_cons_none {sel : HttpModule → Option Hook} {tag : Nat → Ev}
    {i : Nat} {m : HttpModule} {rest : List (Nat × HttpModule)} {c : Ctx}
    (h : sel m = none) :
    runHooks sel tag ((i, m) :: rest) c = runHooks sel tag rest c := by
  simp [runHooks, h]

theorem runHooks_cons_panic {sel : HttpModule → Option Hook} {tag : Nat → Ev}
    {i : Nat} {m : HttpModule} {rest : List (Nat × HttpModule)} {c c1 : Ctx}
    {hk : Hook} {v : String} (h : sel m = some hk) (hh : hk c = (c1, some v)) :
    runHooks sel tag ((i, m) :: rest) c = (c1, [tag i], some v) := by
  simp [runHooks, h, hh]

theorem runHooks_cons_ok {sel : HttpModule → Option Hook} {tag : Nat → Ev}
    {i : Nat} {m : HttpModule} {rest : List (Nat × HttpModule)} {c c1 : Ctx}
    {hk : Hook} (h : sel m = some hk) (hh : hk c = (c1, none)) :
    runHooks sel tag ((i, m) :: rest) c =
      ((runHooks sel tag rest c1).1,
        tag i :: (runHooks sel tag rest c1).2.1,
        (runHooks sel tag rest c1).2.2) := by
  simp [runHooks, h, hh]

theorem runHooks_events_map (sel : HttpModule → Option Hook) (tag : Nat → Ev) :
    ∀ (l : List (Nat × HttpModule)) (c : Ctx),
      ∃ ix : List Nat, (runHooks sel tag l c).2.1 = ix.map tag := by
  intro l
  induction l with
  | nil => intro c; exact ⟨[], rfl⟩
  | cons im rest ih =>
    intro c
    obtain ⟨i, m⟩ := im
    cases hsel : sel m with
    | none => rw [runHooks_cons_none hsel]; exact ih c
    | some hk =>
      cases hhk : hk c with
      | mk c1 pv =>
        cases pv with
        | some v =>
          rw [runHooks_cons_panic hsel hhk]
          exact ⟨[i], rfl⟩
        | none =>
          rw [runHooks_cons_ok hsel hhk]
          obtain ⟨ix, hix⟩ := ih c1
          exact ⟨i :: ix, by simp [hix]⟩

theorem runHooks_complete (sel : HttpModule → Option Hook) (tag : Nat → Ev) :
    ∀ (l : List (Nat × HttpModule)) (c c' : Ctx) (evs : List Ev),
      runHooks sel tag l c = (c', evs, none) →
      evs = (l.filter (fun im => (sel im.2).isSome)).map (fun im => tag im.1) := by
  intro l
  induction l with
  | nil =>
    intro c c' evs h
    simp only [runHooks] at h
    cases h
    rfl
  | cons im rest ih =>
    intro c c' evs h
    obtain ⟨i, m⟩ := im
    cases hsel : sel m with
    | none =>
      rw [runHooks_cons_none hsel] at h
      have := ih c c' evs h
      simp [List.filter_cons, hsel, this]
    | some hk =>
      cases hhk : hk c with
      | mk c1 pv =>
        cases pv with
        | some v =>
          rw [runHooks_cons_panic hsel hhk] at h
          simp at h
        | none =>
          rw [runHooks_cons_ok hsel hhk] at h
          cases hrec : runHooks sel tag rest c1 with
          | mk c2 r =>
            cases r with
            | mk evs2 pv2 =>
              rw [hrec] at h
              simp only [Prod.mk.injEq] at h
              obtain ⟨h1, h2, h3⟩ := h
              subst h3
              have := ih c1 c2 evs2 hrec
              simp [List.filter_cons, hsel, ← h2, this]

theorem handlerStage_events (handle : HttpHandle) (c : Ctx) :
    (handlerStage handle c).2.1 = [] ∨ (handlerStage handle c).2.1 = [Ev.handlerRun] := by
  by_cases h : c.isEnd = false
  · cases hh : handle c with
    | mk c1 pv => right; simp [handlerStage, h, hh]
  · left; simp [handlerStage, h]

theorem runBody_events_decomp (sv : ServerEnv) (handle : HttpHandle) (c : Ctx) :
    ∃ (ib : List Nat) (m : List Ev) (ie : List Nat),
      (runBody sv handle c).2.1
        = ib.map Ev.beginHook ++ m ++ ie.map Ev.endHook
      ∧ (m = [] ∨ m = [Ev.handlerRun]) := by
  obtain ⟨ib, hib⟩ :=
    runHooks_events_map (fun m => m.onBeginRequest) Ev.beginHook sv.modules.enum c
  cases hb : runHooks (fun m => m.onBeginRequest) Ev.beginHook sv.modules.enum c with
  | mk c1 r1 =>
    cases r1 with
    | mk eb pb =>
      rw [hb] at hib
      simp only at hib
      subst hib
      cases pb with
      | some v =>
        refine ⟨ib, [], [], ?_, Or.inl rfl⟩
        simp [runBody, hb]
      | none =>
        have hm := handlerStage_events handle c1
        cases hs : handlerStage handle c1 with
        | mk c2 r2 =>
          cases r2 with
          | mk em ph =>
            rw [hs] at hm
            simp only at hm
            cases ph with
            | some v =>
              refine ⟨ib, em, [], ?_, hm⟩
              simp [runBody, hb, hs]
            | none =>
              obtain ⟨ie, hie⟩ :=
                runHooks_events_map (fun m => m.onEndRequest) Ev.endHook sv.modules.enum c2
              cases he : runHooks (fun m => m.onEndRequest) Ev.endHook sv.modules.enum c2 with
              | mk c3 r3 =>
                cases r3 with
                | mk ee pe =>
                  rw [he] at hie
                  simp only at hie
                  subst hie
                  refine ⟨ib, em, ie, ?_, hm⟩
                  simp [runBody, hb, hs, he]

theorem runBody_ended (sv : ServerEnv) (handle : HttpHandle) (c c1 c2 : Ctx)
    (eb ee : List Ev) (pe : Option String)
    (hb : runHooks (fun m => m.onBeginRequest) Ev.beginHook sv.modules.enum c
        = (c1, eb, none))
    (hend : c1.isEnd = true)
    (he : runHooks (fun m => m.onEndRequest) Ev.endHook sv.modules.enum c1
        = (c2, ee, pe)) :
    runBody sv handle c = (c2, eb ++ ee, pe) := by
  have hstage : handlerStage handle c1 = (c1, [], none) := by
    simp [handlerStage, hend]
  simp [runBody, hb, hstage, he]

theorem runBody_handler_panic (sv : ServerEnv) (handle : HttpHandle) (c c1 c2 : Ctx)
    (eb : List Ev) (v : String)
    (hb : runHooks (fun m => m.onBeginRequest) Ev.beginHook sv.modules.enum c
        = (c1, eb, none))
    (hne : c1.isEnd = false)
    (hh : handle c1 = (c2, some v)) :
    runBody sv handle c = (c2, eb ++ [Ev.handlerRun], some v) := by
  have hstage : handlerStage handle c1 = (c2, [Ev.handlerRun], some v) := by
    simp [handlerStage, hne, hh]
  simp [runBody, hb, hstage]

theorem setupTail_mem (sv : ServerEnv) (c : Ctx) :
    ∀ e ∈ setupTail sv c, Ev.isSetupTailEv e = true := by
  intro e he
  simp only [setupTail, List.append_assoc, List.mem_append] at he
  rcases he with he | he | he
  · split at he <;> simp at he
    subst he; rfl
  · simp at he; subst he; rfl
  · simp only [sessionStep] at he
    split at he
    · split at he
      · simp at he
      · simp at he; subst he; rfl
    · simp at he

theorem finalizer_mem (sv : ServerEnv) (p : Option String) :
    ∀ e ∈ finalizer sv p, Ev.isFinalizerEv e = true := by
  intro e he
  simp only [finalizer, List.append_assoc, List.mem_append] at he
  rcases he with he | he | he | he
  · cases p with
    | none => simp at he
    | some v =>
      simp only [List.mem_append] at he
      rcases he with he | he
      · split at he <;> simp at he
        subst he; rfl
      · simp at he
        rcases he with he | he <;> subst he <;> rfl
  · simp at he; subst he; rfl
  · split at he <;> simp at he
    subst he; rfl
  · simp at he
    rcases he with he | he <;> subst he <;> rfl

/-! ### Counting over the individual pipeline segments -/

theorem countEv_map_tag_zero {q : Ev → Bool} {tag : Nat → Ev}
    (h : ∀ i, q (tag i) = false) (ix : List Nat) :
    countEv q (ix.map tag) = 0 := by
  simp [countEv, filter_map_tag_nil h]

theorem countEv_setupTail_zero {q : Ev → Bool} (sv : ServerEnv) (c : Ctx)
    (h : ∀ e, Ev.isSetupTailEv e = true → q e = false) :
    countEv q (setupTail sv c) = 0 :=
  countEv_eq_zero_of_forall (fun e he => h e (setupTail_mem sv c e he))

theorem countEv_setup_zero {q : Ev → Bool} (sv : ServerEnv) (c : Ctx)
    (h1 : q Ev.getResponse = false) (h2 : q Ev.getContext = false)
    (h : ∀ e, Ev.isSetupTailEv e = true → q e = false) :
    countEv q (setupEvents sv c) = 0 := by
  apply countEv_eq_zero_of_forall
  intro e he
  simp only [setupEvents, List.mem_append, List.mem_cons, List.mem_singleton,
    List.not_mem_nil, or_false] at he
  rcases he with (rfl | rfl) | he
  · exact h1
  · exact h2
  · exact h e (setupTail_mem sv c e he)

theorem countEv_finalizer_zero {q : Ev → Bool} (sv : ServerEnv) (p : Option String)
    (h : ∀ e, Ev.isFinalizerEv e = true → q e = false) :
    countEv q (finalizer sv p) = 0 :=
  countEv_eq_zero_of_forall (fun e he => h e (finalizer_mem sv p e he))

theorem finalizer_count_putResponse (sv : ServerEnv) (p : Option String) :
    countEv Ev.isPutResponse (finalizer sv p) = 1 := by
  by_cases hr : sv.exceptionHandlerRegistered = true <;>
    by_cases hgz : sv.enabledGzip = true <;>
      cases p <;>
        simp [finalizer, countEv, hr, hgz, Ev.isPutResponse, List.filter_cons]

theorem finalizer_count_putContext (sv : ServerEnv) (p : Option String) :
    countEv Ev.isPutContext (finalizer sv p) = 1 := by
  by_cases hr : sv.exceptionHandlerRegistered = true <;>
    by_cases hgz : sv.enabledGzip = true <;>
      cases p <;>
        simp [finalizer, countEv, hr, hgz, Ev.isPutContext, List.filter_cons]

theorem finalizer_count_errorLog (sv : ServerEnv) (v : String) :
    countEv Ev.isErrorLog (finalizer sv (some v)) = 1 := by
  by_cases hr : sv.exceptionHandlerRegistered = true <;>
    by_cases hgz : sv.enabledGzip = true <;>
      simp [finalizer, countEv, hr, hgz, Ev.isErrorLog, List.filter_cons]

theorem finalizer_count_exceptionRun (sv : ServerEnv) (v : String)
    (hr : sv.exceptionHandlerRegistered = true) :
    countEv (fun e => e == Ev.exceptionHandlerRun v) (finalizer sv (some v)) = 1 := by
  by_cases hgz : sv.enabledGzip = true <;>
    simp [finalizer, countEv, hr, hgz, List.filter_cons]

theorem errorCountTotal_append (a b : List Ev) :
    errorCountTotal (a ++ b) = errorCountTotal a + errorCountTotal b := by
  simp [errorCountTotal]

theorem errorCountTotal_eq_zero_of_forall {l : List Ev}
    (h : ∀ e ∈ l, evErrInc e = 0) : errorCountTotal l = 0 := by
  apply List.sum_eq_zero
  intro x hx
  obtain ⟨e, he, rfl⟩ := List.mem_map.mp hx
  exact h e he

theorem finalizer_errorCountTotal (sv : ServerEnv) (v : String) :
    errorCountTotal (finalizer sv (some v)) = 1 := by
  by_cases hr : sv.exceptionHandlerRegistered = true <;>
    by_cases hgz : sv.enabledGzip = true <;>
      simp [finalizer, errorCountTotal, hr, hgz, evErrInc]

/-- `wrapRouterHandle` on the path that reaches the deferred finalizer:
no gzip-construction failure and no hijack failure. -/
theorem wrapRouterHandle_run (sv : ServerEnv) (handle : HttpHandle)
    (isHijack : Bool) (rq : ReqEnv)
    (hg : ¬(sv.enabledGzip = true ∧ sv.gzipNewWriterErr ≠ none))
    (hh : ¬(isHijack = true ∧ rq.hijackErr ≠ none)) :
    wrapRouterHandle sv handle isHijack rq =
      { events := setupEvents sv initCtx
          ++ (runBody sv handle (sessionStep sv initCtx).1).2.1
          ++ finalizer sv (runBody sv handle (sessionStep sv initCtx).1).2.2,
        escaped := none } := by
  cases hrb : runBody sv handle (sessionStep sv initCtx).1 with
  | mk c r =>
    cases r with
    | mk be pv =>
      simp only [wrapRouterHandle, if_neg hg, if_neg hh, hrb]

/-- Inversion: a panic-free `runBody` means every stage completed without
panic, and the trace is the concatenation of the three stage traces. -/
theorem runBody_none_inv (sv : ServerEnv) (handle : HttpHandle) (c c' : Ctx)
    (evs : List Ev) (h : runBody sv handle c = (c', evs, none)) :
    ∃ c1 eb c2 em c3 ee,
      runHooks (fun m => m.onBeginRequest) Ev.beginHook sv.modules.enum c
          = (c1, eb, none)
        ∧ handlerStage handle c1 = (c2, em, none)
        ∧ runHooks (fun m => m.onEndRequest) Ev.endHook sv.modules.enum c2
            = (c3, ee, none)
        ∧ evs = eb ++ em ++ ee := by
  cases hb : runHooks (fun m => m.onBeginRequest) Ev.beginHook sv.modules.enum c with
  | mk c1 r1 =>
    cases r1 with
    | mk eb pb =>
      cases pb with
      | some v => simp [runBody, hb] at h
      | none =>
        cases hs : handlerStage handle c1 with
        | mk c2 r2 =>
          cases r2 with
          | mk em ph =>
            cases ph with
            | some v => simp [runBody, hb, hs] at h
            | none =>
              cases he : runHooks (fun m => m.onEndRequest) Ev.endHook sv.modules.enum c2 with
              | mk c3 r3 =>
                cases r3 with
                | mk ee pe =>
                  simp only [runBody, hb, hs, he] at h
                  simp only [Prod.mk.injEq] at h
                  obtain ⟨h1, h2, h3⟩ := h
                  subst h3
                  exact ⟨c1, eb, c2, em, c3, ee, rfl, hs, he, h2.symm⟩

/-- The finalizer trace always ends with the context release. -/
theorem finalizer_ends_putContext (sv : ServerEnv) (p : Option String) :
    ∃ f, finalizer sv p = f ++ [Ev.putContext] := by
  refine ⟨(match p with
    | some v =>
      (if sv.exceptionHandlerRegistered = true then [Ev.exceptionHandlerRun v] else [])
        ++ [Ev.errorLog, Ev.addErrorCount 1]
    | none => [])
      ++ [Ev.debugLog]
      ++ (if sv.enabledGzip = true then [Ev.gzipClose] else [])
      ++ [Ev.putResponse], ?_⟩
  cases p <;> simp [finalizer]

/-- Pointwise falseness of a predicate over the whole setup phase. -/
theorem setup_forall_false {q : Ev → Bool} (sv : ServerEnv) (c : Ctx)
    (h1 : q Ev.getResponse = false) (h2 : q Ev.getContext = false)
    (h : ∀ e, Ev.isSetupTailEv e = true → q e = false) :
    ∀ e ∈ setupEvents sv c, q e = false := by
  intro e he
  simp only [setupEvents, List.mem_append, List.mem_cons, List.mem_singleton,
    List.not_mem_nil, or_false] at he
  rcases he with (rfl | rfl) | he
  · exact h1
  · exact h2
  · exact h e (setupTail_mem sv c e he)

/-- Pointwise falseness of a predicate over the finalizer trace. -/
theorem finalizer_forall_false {q : Ev → Bool} (sv : ServerEnv) (p : Option String)
    (h : ∀ e, Ev.isFinalizerEv e = true → q e = false) :
    ∀ e ∈ finalizer sv p, q e = false :=
  fun e he => h e (finalizer_mem sv p e he)

theorem errorCountTotal_setup (sv : ServerEnv) (c : Ctx) :
    errorCountTotal (setupEvents sv c) = 0 := by
  apply errorCountTotal_eq_zero_of_forall
  intro e he
  simp only [setupEvents, List.mem_append, List.mem_cons, List.mem_singleton,
    List.not_mem_nil, or_false] at he
  rcases he with (rfl | rfl) | he
  · rfl
  · rfl
  · have hhe := setupTail_mem sv c e he
    cases e <;> first | rfl | exact Bool.noConfusion hhe

theorem errorCountTotal_map_tag (tag : Nat → Ev)
    (h : ∀ i, evErrInc (tag i) = 0) (ix : List Nat) :
    errorCountTotal (ix.map tag) = 0 :=
  errorCountTotal_eq_zero_of_forall (fun e he => by
    obtain ⟨i, _, rfl⟩ := List.mem_map.mp he
    exact h i)

/-! ### The claims -/

/-- C9: both access-log format functions produce a single space-joined line
of method, caller IP, protocol, status, request byte length, response byte
length, and elapsed milliseconds; `logRequest` (the file-serving variant)
hardcodes status `"200"` regardless of the file handler's outcome, and
`logContext` uses status `"0"` and response byte length `"0"` for WebSocket
traffic. -/
theorem c9_log_format (c : LogCtxData) (r : LogReqData) (t : Int) :
    logContext (some c) t
        = c.method ++ " " ++ c.remoteIP ++ " " ++ c.proto ++ " "
          ++ (if c.isWebSocket then "0" else int2String c.responseStatus) ++ " "
          ++ int642String c.contentLength ++ " "
          ++ (if c.isWebSocket then "0" else int642String c.responseSize) ++ " "
          ++ int642String t
      ∧ logRequest r t
        = r.method ++ " " ++ r.remoteAddr ++ " " ++ r.proto ++ " " ++ "200" ++ " "
          ++ int642String r.contentLength ++ " " ++ "" ++ " " ++ int642String t := by
  constructor
  · cases hw : c.isWebSocket <;> simp [logContext, hw]
  · rfl

/-- C10: a request is classified as a WebSocket upgrade exactly when its
`Connection` header value is the exact string `"Upgrade"`; the comparison is
case-sensitive and does not parse token lists, so
`Connection: keep-alive, Upgrade` (and `Connection: upgrade`) flow through
the normal dispatch path. -/
theorem c10_websocket_classification :
    (∀ h : List (String × String),
        checkIsWebSocketRequest h = true ↔ headerGet h "Connection" = "Upgrade")
      ∧ checkIsWebSocketRequest [("Connection", "keep-alive, Upgrade")] = false
      ∧ checkIsWebSocketRequest [("Connection", "upgrade")] = false
      ∧ serveHTTP false [("Connection", "keep-alive, Upgrade")]
          = [Ev.serverHeaderSet, Ev.routerServe]
      ∧ checkIsWebSocketRequest [("Connection", "Upgrade")] = true
      ∧ serveHTTP false [("Connection", "Upgrade")] = [Ev.defaultMuxServe] := by
  refine ⟨?_, by decide, by decide, by decide, by decide, by decide⟩
  intro h
  simp [checkIsWebSocketRequest]

/-- C2 counterexample: for a WebSocket-classified request, `ServeHTTP` never
sets the `Server` header, contradicting the claim that it is set for every
inbound request before any other processing. -/
theorem c2_counterexample :
    Ev.serverHeaderSet ∉ serveHTTP false [("Connection", "Upgrade")] := by
  decide

/-- C2 (amended): for every non-WebSocket request, the `Server` header is
stamped first, before the offline handler or the router runs; a
WebSocket-classified request is delegated to the default mux without the
header being set. -/
theorem c2_server_header (offline : Bool) (h : List (String × String))
    (hws : checkIsWebSocketRequest h = false) :
    serveHTTP offline h
      = Ev.serverHeaderSet ::
          (if offline then [Ev.offlineServe] else [Ev.routerServe]) := by
  simp [serveHTTP, hws]

/-- C2 witness: the amended theorem applied to an offline server and a
request with no `Connection` header. -/
theorem c2_witness :
    checkIsWebSocketRequest [] = false
      ∧ serveHTTP true []
          = Ev.serverHeaderSet ::
              (if true then [Ev.offlineServe] else [Ev.routerServe]) :=
  ⟨by decide, c2_server_header true [] (by decide)⟩

/-- C4 counterexample: with gzip enabled and `gzip.NewWriterLevel` failing,
the panic escapes `wrapRouterHandle` (the `defer` of line 242 is not yet
registered), so it is not caught by the per-request finalizer: no error log
is emitted, the error counter is not incremented, and the pooled objects are
not returned. -/
theorem c4_counterexample :
    (wrapRouterHandle svGzipFail idHandle false okReq).escaped
        = some "use gzip error -> bad level"
      ∧ countEv Ev.isErrorLog (wrapRouterHandle svGzipFail idHandle false okReq).events = 0
      ∧ errorCountTotal (wrapRouterHandle svGzipFail idHandle false okReq).events = 0
      ∧ countEv Ev.isPutResponse (wrapRouterHandle svGzipFail idHandle false okReq).events
          = 0 := by
  decide

/-- C4 (amended): when gzip is enabled and construction of the compressing
writer fails, the wrapper panics with `"use gzip error -> "` plus the error
text, and that panic propagates out of the wrapper to its caller — the
deferred finalizer is registered only later, so the panic is not caught,
logged, or counted by it, and only the two pool acquisitions have
happened. -/
theorem c4_gzip_fail_escapes (sv : ServerEnv) (handle : HttpHandle)
    (isHijack : Bool) (rq : ReqEnv) (msg : String)
    (hg : sv.enabledGzip = true) (he : sv.gzipNewWriterErr = some msg) :
    wrapRouterHandle sv handle isHijack rq
      = { events := [Ev.getResponse, Ev.getContext],
          escaped := some ("use gzip error -> " ++ msg) } := by
  have hc : sv.enabledGzip = true ∧ sv.gzipNewWriterErr ≠ none := ⟨hg, by simp [he]⟩
  simp only [wrapRouterHandle]
  rw [if_pos hc]
  simp [he]

/-- C4 witness: the amended theorem applied to the failing-gzip
configuration. -/
theorem c4_witness :
    svGzipFail.enabledGzip = true
      ∧ svGzipFail.gzipNewWriterErr = some "bad level"
      ∧ wrapRouterHandle svGzipFail idHandle false okReq
          = { events := [Ev.getResponse, Ev.getContext],
              escaped := some ("use gzip error -> " ++ "bad level") } :=
  ⟨rfl, rfl, c4_gzip_fail_escapes svGzipFail idHandle false okReq "bad level" rfl rfl⟩

/-- C7: with sessions enabled, if the session manager resolves a non-empty
client-presented session id without error then the context's session id
equals it and no cookie is set; otherwise the (non-empty, spec-modelled)
newly minted id is stored on the context and exactly one `Set-Cookie` is
emitted under the configured cookie name with path `/`, carrying the
query-escaped id. -/
theorem c7_session_binding (sv : ServerEnv) (c : Ctx)
    (hs : sv.enabledSession = true) :
    ((sv.clientSessionErr = false ∧ sv.clientSessionID ≠ "") →
        (sessionStep sv c).1.sessionID = sv.clientSessionID
          ∧ (sessionStep sv c).2 = [])
      ∧ (¬(sv.clientSessionErr = false ∧ sv.clientSessionID ≠ "") →
          sv.newSessionID ≠ "" →
          (sessionStep sv c).1.sessionID = sv.newSessionID
            ∧ (sessionStep sv c).1.sessionID ≠ ""
            ∧ (sessionStep sv c).2
                = [Ev.setCookie sv.cookieName (queryEscape sv.newSessionID) "/"]) := by
  constructor
  · intro hcl
    simp [sessionStep, hs, hcl]
  · intro hcl hne
    have hstep : sessionStep sv c
        = ({ c with sessionID := sv.newSessionID },
            [Ev.setCookie sv.cookieName (queryEscape sv.newSessionID) "/"]) := by
      simp only [sessionStep, if_pos hs, if_neg hcl]
    rw [hstep]
    exact ⟨rfl, hne, rfl⟩

/-- C7 witness: sessions enabled and no client id presented mints
`"abc123"` and emits exactly one cookie. -/
theorem c7_witness :
    svSession.enabledSession = true
      ∧ ¬(svSession.clientSessionErr = false ∧ svSession.clientSessionID ≠ "")
      ∧ svSession.newSessionID ≠ ""
      ∧ (sessionStep svSession initCtx).1.sessionID = "abc123"
      ∧ (sessionStep svSession initCtx).2
          = [Ev.setCookie "dotweb_sessionId" (queryEscape "abc123") "/"] :=
  ⟨rfl, by decide, by decide,
    ((c7_session_binding svSession initCtx rfl).2 (by decide) (by decide)).1,
    ((c7_session_binding svSession initCtx rfl).2 (by decide) (by decide)).2.2⟩

/-- C8: when the streaming (hijack) flag is set and the hijack attempt
fails, the wrapper writes a 500 status, sets the content type, writes the
failure description, and returns immediately: no pre-hook, handler,
post-hook, finalizer (no access log, no error log, no pool release) runs,
and no panic escapes. -/
theorem c8_hijack_failure (sv : ServerEnv) (handle : HttpHandle) (rq : ReqEnv)
    (msg : String)
    (hg : ¬(sv.enabledGzip = true ∧ sv.gzipNewWriterErr ≠ none))
    (he : rq.hijackErr = some msg) :
    (wrapRouterHandle sv handle true rq).events
        = setupEvents sv initCtx
          ++ [Ev.writeHeader 500, Ev.setContentType charsetUTF8, Ev.writeString msg]
      ∧ countEv Ev.isBeginHook (wrapRouterHandle sv handle true rq).events = 0
      ∧ countEv Ev.isHandlerRun (wrapRouterHandle sv handle true rq).events = 0
      ∧ countEv Ev.isEndHook (wrapRouterHandle sv handle true rq).events = 0
      ∧ countEv Ev.isErrorLog (wrapRouterHandle sv handle true rq).events = 0
      ∧ countEv Ev.isDebugLog (wrapRouterHandle sv handle true rq).events = 0
      ∧ countEv Ev.isPutResponse (wrapRouterHandle sv handle true rq).events = 0
      ∧ countEv Ev.isPutContext (wrapRouterHandle sv handle true rq).events = 0
      ∧ (wrapRouterHandle sv handle true rq).escaped = none := by
  have hcond : true = true ∧ rq.hijackErr ≠ none := ⟨rfl, by simp [he]⟩
  have hev : wrapRouterHandle sv handle true rq
      = { events := setupEvents sv initCtx
            ++ [Ev.writeHeader 500, Ev.setContentType charsetUTF8,
                Ev.writeString msg],
          escaped := none } := by
    simp only [wrapRouterHandle]
    rw [if_neg hg]
    split
    · simp [he]
    · next hcon => exact absurd (by simp [he]) hcon
  rw [hev]
  refine ⟨rfl, ?_, ?_, ?_, ?_, ?_, ?_, ?_, rfl⟩ <;>
  · rw [countEv_append,
      countEv_setup_zero sv initCtx rfl rfl
        (fun e hhe => by cases e <;> first | rfl | exact Bool.noConfusion hhe)]
    rfl

/-- C8 witness: the theorem applied to the plain configuration with a
failing hijack. -/
theorem c8_witness :
    ¬(svPlain.enabledGzip = true ∧ svPlain.gzipNewWriterErr ≠ none)
      ∧ hijackFailReq.hijackErr = some "no hijacker"
      ∧ countEv Ev.isHandlerRun
          (wrapRouterHandle svPlain idHandle true hijackFailReq).events = 0 :=
  ⟨by decide, rfl,
    (c8_hijack_failure svPlain idHandle hijackFailReq "no hijacker"
      (by decide) rfl).2.2.1⟩

/-- C1 counterexample: on the hijack-failure path the wrapper returns before
the deferred finalizer is registered, so neither the `Response` nor the
`HttpContext` is returned to the pool — contradicting the claim that both
are released exactly once on that path. -/
theorem c1_counterexample :
    ¬(countEv Ev.isPutResponse
          (wrapRouterHandle svPlain idHandle true hijackFailReq).events = 1
      ∧ countEv Ev.isPutContext
          (wrapRouterHandle svPlain idHandle true hijackFailReq).events = 1) := by
  decide

/-- C1 (amended): on every request that reaches the deferred finalizer —
that is, whenever gzip construction does not fail and (in hijack mode) the
hijack succeeds — the `Response` and the `HttpContext` are each acquired
once and released exactly once, regardless of hook or handler panics; on
the hijack-failure and gzip-construction-failure paths they are acquired
but never released. -/
theorem c1_pool_balance (sv : ServerEnv) (handle : HttpHandle) (isHijack : Bool)
    (rq : ReqEnv)
    (hg : ¬(sv.enabledGzip = true ∧ sv.gzipNewWriterErr ≠ none))
    (hh : ¬(isHijack = true ∧ rq.hijackErr ≠ none)) :
    countEv Ev.isGetResponse (wrapRouterHandle sv handle isHijack rq).events = 1
      ∧ countEv Ev.isPutResponse (wrapRouterHandle sv handle isHijack rq).events = 1
      ∧ countEv Ev.isGetContext (wrapRouterHandle sv handle isHijack rq).events = 1
      ∧ countEv Ev.isPutContext (wrapRouterHandle sv handle isHijack rq).events = 1
      ∧ (wrapRouterHandle sv handle isHijack rq).escaped = none := by
  have hev : (wrapRouterHandle sv handle isHijack rq).events
      = setupEvents sv initCtx
        ++ (runBody sv handle (sessionStep sv initCtx).1).2.1
        ++ finalizer sv (runBody sv handle (sessionStep sv initCtx).1).2.2 := by
    rw [wrapRouterHandle_run sv handle isHijack rq hg hh]
  have hesc : (wrapRouterHandle sv handle isHijack rq).escaped = none := by
    rw [wrapRouterHandle_run sv handle isHijack rq hg hh]
  obtain ⟨ib, m, ie, hdec, hm⟩ :=
    runBody_events_decomp sv handle (sessionStep sv initCtx).1
  have hbody : ∀ q : Ev → Bool, q Ev.handlerRun = false →
      (∀ i, q (Ev.beginHook i) = false) → (∀ i, q (Ev.endHook i) = false) →
      countEv q (runBody sv handle (sessionStep sv initCtx).1).2.1 = 0 := by
    intro q hq1 hq2 hq3
    rw [hdec, countEv_append, countEv_append,
      countEv_map_tag_zero hq2, countEv_map_tag_zero hq3]
    rcases hm with rfl | rfl
    · rfl
    · simp [countEv, List.filter_cons, hq1]
  have hsetup1 : ∀ q : Ev → Bool,
      (∀ e, Ev.isSetupTailEv e = true → q e = false) →
      countEv q (setupEvents sv initCtx)
        = countEv q [Ev.getResponse, Ev.getContext] := by
    intro q hq
    rw [show setupEvents sv initCtx
        = [Ev.getResponse, Ev.getContext] ++ setupTail sv initCtx from rfl,
      countEv_append, countEv_setupTail_zero sv initCtx hq]
    rfl
  refine ⟨?_, ?_, ?_, ?_, hesc⟩
  · rw [hev, countEv_append, countEv_append,
      hbody Ev.isGetResponse rfl (fun i => rfl) (fun i => rfl),
      countEv_finalizer_zero sv _
        (fun e hhe => by cases e <;> first | rfl | exact Bool.noConfusion hhe),
      hsetup1 Ev.isGetResponse
        (fun e hhe => by cases e <;> first | rfl | exact Bool.noConfusion hhe)]
    rfl
  · rw [hev, countEv_append, countEv_append,
      hbody Ev.isPutResponse rfl (fun i => rfl) (fun i => rfl),
      finalizer_count_putResponse,
      countEv_setup_zero sv initCtx rfl rfl
        (fun e hhe => by cases e <;> first | rfl | exact Bool.noConfusion hhe)]
  · rw [hev, countEv_append, countEv_append,
      hbody Ev.isGetContext rfl (fun i => rfl) (fun i => rfl),
      countEv_finalizer_zero sv _
        (fun e hhe => by cases e <;> first | rfl | exact Bool.noConfusion hhe),
      hsetup1 Ev.isGetContext
        (fun e hhe => by cases e <;> first | rfl | exact Bool.noConfusion hhe)]
    rfl
  · rw [hev, countEv_append, countEv_append,
      hbody Ev.isPutContext rfl (fun i => rfl) (fun i => rfl),
      finalizer_count_putContext,
      countEv_setup_zero sv initCtx rfl rfl
        (fun e hhe => by cases e <;> first | rfl | exact Bool.noConfusion hhe)]

/-- C1 witness: the amended theorem applied to the plain configuration with
a normally returning handler. -/
theorem c1_witness :
    ¬(svPlain.enabledGzip = true ∧ svPlain.gzipNewWriterErr ≠ none)
      ∧ ¬(false = true ∧ okReq.hijackErr ≠ none)
      ∧ countEv Ev.isPutResponse
          (wrapRouterHandle svPlain idHandle false okReq).events = 1
      ∧ countEv Ev.isPutContext
          (wrapRouterHandle svPlain idHandle false okReq).events = 1 :=
  ⟨by decide, by decide,
    (c1_pool_balance svPlain idHandle false okReq (by decide) (by decide)).2.1,
    (c1_pool_balance svPlain idHandle false okReq (by decide) (by decide)).2.2.2.1⟩

/-- C5: when the user handler panics (pre-hooks having completed without
panic and the context not ended): the registered exception handler is
invoked exactly once with the original panic value, exactly one error-level
log record is emitted, the process-wide error counter is incremented by
exactly 1, and the panic does not propagate past the request's finalizer. -/
theorem c5_handler_panic (sv : ServerEnv) (handle : HttpHandle) (isHijack : Bool)
    (rq : ReqEnv) (c1 : Ctx) (eb : List Ev) (c2 : Ctx) (v : String)
    (hg : ¬(sv.enabledGzip = true ∧ sv.gzipNewWriterErr ≠ none))
    (hh : ¬(isHijack = true ∧ rq.hijackErr ≠ none))
    (hb : runHooks (fun m => m.onBeginRequest) Ev.beginHook sv.modules.enum
            (sessionStep sv initCtx).1 = (c1, eb, none))
    (hne : c1.isEnd = false)
    (hpanic : handle c1 = (c2, some v))
    (hex : sv.exceptionHandlerRegistered = true) :
    countEv (fun e => e == Ev.exceptionHandlerRun v)
        (wrapRouterHandle sv handle isHijack rq).events = 1
      ∧ countEv Ev.isErrorLog (wrapRouterHandle sv handle isHijack rq).events = 1
      ∧ errorCountTotal (wrapRouterHandle sv handle isHijack rq).events = 1
      ∧ (wrapRouterHandle sv handle isHijack rq).escaped = none := by
  have hev : (wrapRouterHandle sv handle isHijack rq).events
      = setupEvents sv initCtx
        ++ (runBody sv handle (sessionStep sv initCtx).1).2.1
        ++ finalizer sv (runBody sv handle (sessionStep sv initCtx).1).2.2 := by
    rw [wrapRouterHandle_run sv handle isHijack rq hg hh]
  have hesc : (wrapRouterHandle sv handle isHijack rq).escaped = none := by
    rw [wrapRouterHandle_run sv handle isHijack rq hg hh]
  have hrb : runBody sv handle (sessionStep sv initCtx).1
      = (c2, eb ++ [Ev.handlerRun], some v) :=
    runBody_handler_panic sv handle _ c1 c2 eb v hb hne hpanic
  obtain ⟨ib, hib⟩ := runHooks_events_map (fun m => m.onBeginRequest)
    Ev.beginHook sv.modules.enum (sessionStep sv initCtx).1
  rw [hb] at hib
  have hib2 : eb = ib.map Ev.beginHook := hib
  subst hib2
  have hev2 : (wrapRouterHandle sv handle isHijack rq).events
      = setupEvents sv initCtx
        ++ (ib.map Ev.beginHook ++ [Ev.handlerRun])
        ++ finalizer sv (some v) := by
    rw [hev, hrb]
  refine ⟨?_, ?_, ?_, hesc⟩
  · rw [hev2, countEv_append, countEv_append, countEv_append,
      countEv_map_tag_zero (fun i => rfl) ib,
      countEv_setup_zero sv initCtx rfl rfl
        (fun e hhe => by cases e <;> first | rfl | exact Bool.noConfusion hhe),
      finalizer_count_exceptionRun sv v hex]
    rfl
  · rw [hev2, countEv_append, countEv_append, countEv_append,
      countEv_map_tag_zero (fun i => rfl) ib,
      countEv_setup_zero sv initCtx rfl rfl
        (fun e hhe => by cases e <;> first | rfl | exact Bool.noConfusion hhe),
      finalizer_count_errorLog sv v]
    rfl
  · rw [hev2, errorCountTotal_append, errorCountTotal_append,
      errorCountTotal_append, errorCountTotal_setup,
      errorCountTotal_map_tag Ev.beginHook (fun i => rfl) ib,
      finalizer_errorCountTotal sv v]
    rfl

/-- C5 witness: the theorem applied to a configuration with a registered
exception handler and a handler panicking with `"boom"`. -/
theorem c5_witness :
    ¬(svExc.enabledGzip = true ∧ svExc.gzipNewWriterErr ≠ none)
      ∧ ¬(false = true ∧ okReq.hijackErr ≠ none)
      ∧ runHooks (fun m => m.onBeginRequest) Ev.beginHook svExc.modules.enum
            (sessionStep svExc initCtx).1 = (initCtx, [], none)
      ∧ initCtx.isEnd = false
      ∧ panicHandle initCtx = (initCtx, some "boom")
      ∧ svExc.exceptionHandlerRegistered = true
      ∧ errorCountTotal (wrapRouterHandle svExc panicHandle false okReq).events
          = 1 :=
  ⟨by decide, by decide, rfl, rfl, rfl, rfl,
    (c5_handler_panic svExc panicHandle false okReq initCtx [] initCtx "boom"
      (by decide) (by decide) rfl rfl rfl rfl).2.2.1⟩

/-- C6: when the begin hooks complete without panic leaving the context
ended, the user handler is never invoked, and (when no post-hook panics)
every registered post-hook still runs, in registration order. -/
theorem c6_ended_skips_handler (sv : ServerEnv) (handle : HttpHandle)
    (isHijack : Bool) (rq : ReqEnv) (c1 : Ctx) (eb : List Ev) (c2 : Ctx)
    (ee : List Ev)
    (hg : ¬(sv.enabledGzip = true ∧ sv.gzipNewWriterErr ≠ none))
    (hh : ¬(isHijack = true ∧ rq.hijackErr ≠ none))
    (hb : runHooks (fun m => m.onBeginRequest) Ev.beginHook sv.modules.enum
            (sessionStep sv initCtx).1 = (c1, eb, none))
    (hend : c1.isEnd = true)
    (hpost : runHooks (fun m => m.onEndRequest) Ev.endHook sv.modules.enum c1
        = (c2, ee, none)) :
    countEv Ev.isHandlerRun (wrapRouterHandle sv handle isHijack rq).events = 0
      ∧ (wrapRouterHandle sv handle isHijack rq).events.filter Ev.isEndHook
          = (sv.modules.enum.filter (fun im => im.2.onEndRequest.isSome)).map
              (fun im => Ev.endHook im.1) := by
  have hev : (wrapRouterHandle sv handle isHijack rq).events
      = setupEvents sv initCtx
        ++ (runBody sv handle (sessionStep sv initCtx).1).2.1
        ++ finalizer sv (runBody sv handle (sessionStep sv initCtx).1).2.2 := by
    rw [wrapRouterHandle_run sv handle isHijack rq hg hh]
  have hrb : runBody sv handle (sessionStep sv initCtx).1 = (c2, eb ++ ee, none) :=
    runBody_ended sv handle _ c1 c2 eb ee none hb hend hpost
  obtain ⟨ib, hib⟩ := runHooks_events_map (fun m => m.onBeginRequest)
    Ev.beginHook sv.modules.enum (sessionStep sv initCtx).1
  rw [hb] at hib
  have hib2 : eb = ib.map Ev.beginHook := hib
  subst hib2
  obtain ⟨ie, hie⟩ := runHooks_events_map (fun m => m.onEndRequest)
    Ev.endHook sv.modules.enum c1
  rw [hpost] at hie
  have hie2 : ee = ie.map Ev.endHook := hie
  subst hie2
  have hcomp := runHooks_complete (fun m => m.onEndRequest) Ev.endHook
    sv.modules.enum c1 c2 (ie.map Ev.endHook) hpost
  have hev2 : (wrapRouterHandle sv handle isHijack rq).events
      = setupEvents sv initCtx
        ++ (ib.map Ev.beginHook ++ ie.map Ev.endHook)
        ++ finalizer sv none := by
    rw [hev, hrb]
  constructor
  · rw [hev2, countEv_append, countEv_append, countEv_append,
      countEv_map_tag_zero (fun i => rfl) ib,
      countEv_map_tag_zero (fun i => rfl) ie,
      countEv_setup_zero sv initCtx rfl rfl
        (fun e hhe => by cases e <;> first | rfl | exact Bool.noConfusion hhe),
      countEv_finalizer_zero sv none
        (fun e hhe => by cases e <;> first | rfl | exact Bool.noConfusion hhe)]
  · rw [hev2, List.filter_append, List.filter_append, List.filter_append,
      filter_map_tag_nil (fun i => rfl) ib,
      filter_map_tag_self (fun i => rfl) ie,
      filter_eq_nil_of_forall (setup_forall_false sv initCtx rfl rfl
        (fun e hhe => by cases e <;> first | rfl | exact Bool.noConfusion hhe)),
      filter_eq_nil_of_forall (finalizer_forall_false sv none
        (fun e hhe => by cases e <;> first | rfl | exact Bool.noConfusion hhe))]
    simpa using hcomp

/-- C6 witness: a module whose begin hook ends the context; its end hook
still runs and the handler does not. -/
theorem c6_witness :
    ¬(svEnder.enabledGzip = true ∧ svEnder.gzipNewWriterErr ≠ none)
      ∧ ¬(false = true ∧ okReq.hijackErr ≠ none)
      ∧ runHooks (fun m => m.onBeginRequest) Ev.beginHook svEnder.modules.enum
            (sessionStep svEnder initCtx).1 = (ctxEnded, [Ev.beginHook 0], none)
      ∧ ctxEnded.isEnd = true
      ∧ runHooks (fun m => m.onEndRequest) Ev.endHook svEnder.modules.enum
            ctxEnded = (ctxEnded, [Ev.endHook 0], none)
      ∧ countEv Ev.isHandlerRun
          (wrapRouterHandle svEnder idHandle false okReq).events = 0 :=
  ⟨by decide, by decide, rfl, rfl, rfl,
    (c6_ended_skips_handler svEnder idHandle false okReq ctxEnded
      [Ev.beginHook 0] ctxEnded [Ev.endHook 0]
      (by decide) (by decide) rfl rfl rfl).1⟩

/-- C3 counterexample: with one registered post-hook and a handler that
panics, no post-hook event occurs — contradicting the claim that every
registered post-hook runs regardless of a handler panic. -/
theorem c3_counterexample :
    (svOneEnd.modules.enum.filter (fun im => im.2.onEndRequest.isSome)).length = 1
      ∧ countEv Ev.isEndHook
          (wrapRouterHandle svOneEnd panicHandle false okReq).events = 0 := by
  constructor
  · rfl
  · rfl

/-- C3 (amended): on every request that passes the gzip and hijack steps:
pre-hook events precede the handler event, which precedes post-hook events,
which precede the finalizer events; the trace always ends with the context
release; when no stage panics, every registered pre-hook and post-hook runs
in registration order; but when the handler panics, no post-hook runs at
all (this is where the original claim fails). -/
theorem c3_hook_ordering (sv : ServerEnv) (handle : HttpHandle) (isHijack : Bool)
    (rq : ReqEnv)
    (hg : ¬(sv.enabledGzip = true ∧ sv.gzipNewWriterErr ≠ none))
    (hh : ¬(isHijack = true ∧ rq.hijackErr ≠ none)) :
    (∃ (ib : List Nat) (m : List Ev) (ie : List Nat) (p : Option String),
        (wrapRouterHandle sv handle isHijack rq).events
            = setupEvents sv initCtx
              ++ (ib.map Ev.beginHook ++ m ++ ie.map Ev.endHook)
              ++ finalizer sv p
          ∧ (m = [] ∨ m = [Ev.handlerRun]))
      ∧ (∃ z, (wrapRouterHandle sv handle isHijack rq).events
            = z ++ [Ev.putContext])
      ∧ (∀ (c' : Ctx) (evs : List Ev),
          runBody sv handle (sessionStep sv initCtx).1 = (c', evs, none) →
          (wrapRouterHandle sv handle isHijack rq).events.filter Ev.isBeginHook
              = (sv.modules.enum.filter (fun im => im.2.onBeginRequest.isSome)).map
                  (fun im => Ev.beginHook im.1)
            ∧ (wrapRouterHandle sv handle isHijack rq).events.filter Ev.isEndHook
              = (sv.modules.enum.filter (fun im => im.2.onEndRequest.isSome)).map
                  (fun im => Ev.endHook im.1))
      ∧ (∀ (c1 : Ctx) (eb : List Ev) (c2 : Ctx) (v : String),
          runHooks (fun m => m.onBeginRequest) Ev.beginHook sv.modules.enum
              (sessionStep sv initCtx).1 = (c1, eb, none) →
          c1.isEnd = false → handle c1 = (c2, some v) →
          (wrapRouterHandle sv handle isHijack rq).events.filter Ev.isEndHook
            = []) := by
  have hev : (wrapRouterHandle sv handle isHijack rq).events
      = setupEvents sv initCtx
        ++ (runBody sv handle (sessionStep sv initCtx).1).2.1
        ++ finalizer sv (runBody sv handle (sessionStep sv initCtx).1).2.2 := by
    rw [wrapRouterHandle_run sv handle isHijack rq hg hh]
  refine ⟨?_, ?_, ?_, ?_⟩
  · obtain ⟨ib, m, ie, hdec, hm⟩ :=
      runBody_events_decomp sv handle (sessionStep sv initCtx).1
    exact ⟨ib, m, ie, (runBody sv handle (sessionStep sv initCtx).1).2.2,
      by rw [hev, hdec], hm⟩
  · obtain ⟨f, hf⟩ := finalizer_ends_putContext sv
      (runBody sv handle (sessionStep sv initCtx).1).2.2
    refine ⟨setupEvents sv initCtx
      ++ (runBody sv handle (sessionStep sv initCtx).1).2.1 ++ f, ?_⟩
    rw [hev, hf]
    simp [List.append_assoc]
  · intro c' evs hnone
    obtain ⟨c1, eb, c2, em, c3, ee, hb, hs, he, hevs⟩ :=
      runBody_none_inv sv handle (sessionStep sv initCtx).1 c' evs hnone
    have hev3 : (wrapRouterHandle sv handle isHijack rq).events
        = setupEvents sv initCtx ++ evs ++ finalizer sv none := by
      rw [hev, hnone]
    obtain ⟨ib, hib⟩ := runHooks_events_map (fun m => m.onBeginRequest)
      Ev.beginHook sv.modules.enum (sessionStep sv initCtx).1
    rw [hb] at hib
    have hib2 : eb = ib.map Ev.beginHook := hib
    obtain ⟨ie, hie⟩ := runHooks_events_map (fun m => m.onEndRequest)
      Ev.endHook sv.modules.enum c2
    rw [he] at hie
    have hie2 : ee = ie.map Ev.endHook := hie
    have hm := handlerStage_events handle c1
    rw [hs] at hm
    simp only at hm
    have hbfull := runHooks_complete (fun m => m.onBeginRequest) Ev.beginHook
      sv.modules.enum (sessionStep sv initCtx).1 c1 eb hb
    have hefull := runHooks_complete (fun m => m.onEndRequest) Ev.endHook
      sv.modules.enum c2 c3 ee he
    have hemnil : ∀ q : Ev → Bool, q Ev.handlerRun = false →
        em.filter q = [] := by
      intro q hq
      rcases hm with rfl | rfl
      · rfl
      · simp [List.filter_cons, hq]
    constructor
    · rw [hev3, hevs, List.filter_append, List.filter_append,
        List.filter_append, List.filter_append,
        filter_eq_nil_of_forall (setup_forall_false sv initCtx rfl rfl
          (fun e hhe => by cases e <;> first | rfl | exact Bool.noConfusion hhe)),
        filter_eq_nil_of_forall (finalizer_forall_false sv none
          (fun e hhe => by cases e <;> first | rfl | exact Bool.noConfusion hhe)),
        hemnil Ev.isBeginHook rfl]
      rw [hib2, filter_map_tag_self (fun i => rfl) ib, hie2,
        filter_map_tag_nil (fun i => rfl) ie]
      simpa [hib2] using hbfull
    · rw [hev3, hevs, List.filter_append, List.filter_append,
        List.filter_append, List.filter_append,
        filter_eq_nil_of_forall (setup_forall_false sv initCtx rfl rfl
          (fun e hhe => by cases e <;> first | rfl | exact Bool.noConfusion hhe)),
        filter_eq_nil_of_forall (finalizer_forall_false sv none
          (fun e hhe => by cases e <;> first | rfl | exact Bool.noConfusion hhe)),
        hemnil Ev.isEndHook rfl]
      rw [hib2, filter_map_tag_nil (fun i => rfl) ib, hie2,
        filter_map_tag_self (fun i => rfl) ie]
      simpa [hie2] using hefull
  · intro c1 eb c2 v hb hne hp
    have hrb : runBody sv handle (sessionStep sv initCtx).1
        = (c2, eb ++ [Ev.handlerRun], some v) :=
      runBody_handler_panic sv handle _ c1 c2 eb v hb hne hp
    obtain ⟨ib, hib⟩ := runHooks_events_map (fun m => m.onBeginRequest)
      Ev.beginHook sv.modules.enum (sessionStep sv initCtx).1
    rw [hb] at hib
    have hib2 : eb = ib.map Ev.beginHook := hib
    have hev4 : (wrapRouterHandle sv handle isHijack rq).events
        = setupEvents sv initCtx ++ (eb ++ [Ev.handlerRun])
          ++ finalizer sv (some v) := by
      rw [hev, hrb]
    rw [hev4, List.filter_append, List.filter_append, List.filter_append,
      filter_eq_nil_of_forall (setup_forall_false sv initCtx rfl rfl
        (fun e hhe => by cases e <;> first | rfl | exact Bool.noConfusion hhe)),
      filter_eq_nil_of_forall (finalizer_forall_false sv (some v)
        (fun e hhe => by cases e <;> first | rfl | exact Bool.noConfusion hhe)),
      hib2, filter_map_tag_nil (fun i => rfl) ib]
    rfl

/-- C3 witness: the amended theorem applied to the plain configuration; in
particular the trace ends with the context release. -/
theorem c3_witness :
    ¬(svPlain.enabledGzip = true ∧ svPlain.gzipNewWriterErr ≠ none)
      ∧ ¬(false = true ∧ okReq.hijackErr ≠ none)
      ∧ (∃ z, (wrapRouterHandle svPlain idHandle false okReq).events
          = z ++ [Ev.putContext]) :=
  ⟨by decide, by decide,
    (c3_hook_ordering svPlain idHandle false okReq (by decide) (by decide)).2.1⟩

end DotWeb
